import Mathlib

/-!
Verification of the prompt-building and streaming-aggregation core of the
AI article generator (`app_ui.py`).  Python strings are modelled as lists of
characters, Python dicts reaching the streaming loop as a small value type,
and the Streamlit click handler as a pure function of the form state and of
the model-serving endpoint.
-/

set_option maxRecDepth 10000

namespace ArticleGen

/-- Python strings are modelled as lists of characters. -/
abbrev Str := List Char

/-- View a Lean string literal as the character-list model of a Python string. -/
def str (s : String) : Str := s.data

/-- Python `str.strip()`: here, removal of leading whitespace. -/
def stripStart (l : Str) : Str := l.dropWhile Char.isWhitespace

/-- Python `str.strip()`: here, removal of trailing whitespace. -/
def stripEnd (l : Str) : Str := (l.reverse.dropWhile Char.isWhitespace).reverse

/-- Python `str.strip()` with no argument: drop whitespace from both ends. -/
def pyStrip (l : Str) : Str := stripEnd (stripStart l)

/-- Python `sep.join(xs)`. -/
def pyJoin (sep : Str) : List Str → Str
  | [] => []
  | [k] => k
  | k :: ks => k ++ (sep ++ pyJoin sep ks)

/-- Python `str(n)` on an `int`. -/
def pyIntStr (n : Int) : Str := (toString n).data

/-- `PrefStr p s` states that the string `s` starts with `p`. -/
def PrefStr (p s : Str) : Prop := ∃ t, s = p ++ t

/-- `SuffStr p s` states that the string `s` ends with `p`. -/
def SuffStr (p s : Str) : Prop := ∃ t, s = t ++ p

/-- `SubStr m s` states that `m` occurs verbatim inside `s` (Python `m in s`). -/
def SubStr (m s : Str) : Prop := ∃ a b, s = a ++ (m ++ b)

/-- Boolean test for `PrefStr`. -/
def prefB : Str → Str → Bool
  | [], _ => true
  | _ :: _, [] => false
  | a :: as, b :: bs => a == b && prefB as bs

/-- Boolean test for `SubStr`. -/
def subB : Str → Str → Bool
  | m, [] => m.isEmpty
  | m, c :: rest => prefB m (c :: rest) || subB m rest

theorem prefB_iff (p s : Str) : prefB p s = true ↔ PrefStr p s := by
  induction p generalizing s with
  | nil => simp [prefB, PrefStr]
  | cons a as ih =>
    cases s with
    | nil =>
      simp only [prefB, PrefStr]
      constructor
      · intro h; exact absurd h (by simp)
      · rintro ⟨t, ht⟩; exact absurd ht (by simp)
    | cons b bs =>
      simp only [prefB, Bool.and_eq_true, beq_iff_eq, ih]
      constructor
      · rintro ⟨rfl, t, rfl⟩; exact ⟨t, rfl⟩
      · rintro ⟨t, ht⟩
        simp only [List.cons_append, List.cons.injEq] at ht
        obtain ⟨rfl, rfl⟩ := ht
        exact ⟨rfl, t, rfl⟩

theorem subB_iff (m s : Str) : subB m s = true ↔ SubStr m s := by
  induction s with
  | nil =>
    simp only [subB, List.isEmpty_iff, SubStr]
    constructor
    · rintro rfl; exact ⟨[], [], rfl⟩
    · rintro ⟨a, b, h⟩
      rcases List.append_eq_nil.mp h.symm with ⟨rfl, h2⟩
      exact (List.append_eq_nil.mp h2).1
  | cons c rest ih =>
    simp only [subB, Bool.or_eq_true, prefB_iff, ih]
    constructor
    · rintro (⟨t, ht⟩ | ⟨a, b, rfl⟩)
      · exact ⟨[], t, by simpa using ht⟩
      · exact ⟨c :: a, b, rfl⟩
    · rintro ⟨a, b, h⟩
      cases a with
      | nil => exact Or.inl ⟨b, by simpa using h⟩
      | cons a0 a' =>
        simp only [List.cons_append, List.cons.injEq] at h
        exact Or.inr ⟨a', b, h.2⟩

instance (p s : Str) : Decidable (PrefStr p s) := decidable_of_iff _ (prefB_iff p s)

instance (m s : Str) : Decidable (SubStr m s) := decidable_of_iff _ (subB_iff m s)

theorem SubStr.of_parts {m s a b : Str} (h : s = a ++ (m ++ b)) : SubStr m s := ⟨a, b, h⟩

theorem SubStr.mono {m s t : Str} (hms : SubStr m s) (hst : SubStr s t) : SubStr m t := by
  obtain ⟨a, b, rfl⟩ := hms
  obtain ⟨c, d, rfl⟩ := hst
  exact ⟨c ++ a, b ++ d, by simp [List.append_assoc]⟩

theorem SubStr.of_pref {m s t : Str} (hp : PrefStr s t) (hm : SubStr m s) : SubStr m t := by
  obtain ⟨u, rfl⟩ := hp
  exact SubStr.mono hm ⟨[], u, rfl⟩

theorem subStr_mem_chars {m s : Str} (h : SubStr m s) {c : Char} (hc : c ∈ m) : c ∈ s := by
  obtain ⟨a, b, rfl⟩ := h
  simp [hc]

theorem prefStr_mem_chars {p s : Str} (h : PrefStr p s) {c : Char} (hc : c ∈ p) : c ∈ s := by
  obtain ⟨t, rfl⟩ := h
  simp [hc]

theorem suffStr_mem_chars {p s : Str} (h : SuffStr p s) {c : Char} (hc : c ∈ p) : c ∈ s := by
  obtain ⟨t, rfl⟩ := h
  simp [hc]

/-- Occurrences inside a concatenation: entirely left, entirely right, or
straddling the boundary with a nonempty left part. -/
theorem subStr_append_cases {m a b : Str} (h : SubStr m (a ++ b)) :
    SubStr m a ∨ SubStr m b ∨
      ∃ s t, m = s ++ t ∧ s ≠ [] ∧ SuffStr s a ∧ PrefStr t b := by
  obtain ⟨u, v, huv⟩ := h
  rw [← List.append_assoc] at huv
  rcases List.append_eq_append_iff.mp huv.symm with ⟨w, hw1, hw2⟩ | ⟨w, hw1, hw2⟩
  · -- a = (u ++ m) ++ w, so m sits entirely inside a
    exact Or.inl ⟨u, w, by rw [hw1, List.append_assoc]⟩
  · -- u ++ m = a ++ w and b = w ++ v
    rcases List.append_eq_append_iff.mp hw1 with ⟨x, hx1, hx2⟩ | ⟨x, hx1, hx2⟩
    · -- a = u ++ x and m = x ++ v'… here: m = x ++ w-part
      cases x with
      | nil =>
        -- m = w is a prefix piece of b
        exact Or.inr (Or.inl ⟨[], v, by rw [hx2]; simp [hw2]⟩)
      | cons x0 x' =>
        exact Or.inr (Or.inr ⟨x0 :: x', w, hx2, by simp, ⟨u, hx1⟩, ⟨v, hw2⟩⟩)
    · -- u = a ++ x and w = x ++ m, so m sits entirely inside b
      exact Or.inr (Or.inl ⟨x, v, by rw [hw2, hx2, List.append_assoc]⟩)

/-- An occurrence of a nonempty pattern inside a separated join either lies
inside one of the joined pieces or touches a separator character. -/
theorem subStr_pyJoin_cases {sep m : Str} (hsep : sep ≠ []) (hm : m ≠ [])
    {ks : List Str} (h : SubStr m (pyJoin sep ks)) :
    (∃ k ∈ ks, SubStr m k) ∨ ∃ c ∈ m, c ∈ sep := by
  induction ks with
  | nil =>
    obtain ⟨a, b, hab⟩ := h
    have hnil : ([] : Str) = a ++ (m ++ b) := hab
    rcases List.append_eq_nil.mp hnil.symm with ⟨-, h2⟩
    exact absurd (List.append_eq_nil.mp h2).1 hm
  | cons k ks ih =>
    cases ks with
    | nil => exact Or.inl ⟨k, by simp, h⟩
    | cons k' ks' =>
      have hjoin : pyJoin sep (k :: k' :: ks') = k ++ (sep ++ pyJoin sep (k' :: ks')) := rfl
      rw [hjoin] at h
      rcases subStr_append_cases h with hk | hrest | ⟨s, t, rfl, hs, hsa, hpb⟩
      · exact Or.inl ⟨k, by simp, hk⟩
      · rcases subStr_append_cases hrest with hsep' | hjoin' | ⟨s, t, rfl, hs, hsa, hpb⟩
        · -- m occurs inside the separator itself
          obtain ⟨c, cs, rfl⟩ := List.exists_cons_of_ne_nil hm
          exact Or.inr ⟨c, by simp, subStr_mem_chars hsep' (by simp)⟩
        · rcases ih hjoin' with ⟨k0, hk0, hsub⟩ | hc
          · exact Or.inl ⟨k0, by simp [hk0], hsub⟩
          · exact Or.inr hc
        · -- s nonempty suffix of the separator
          obtain ⟨c, cs, rfl⟩ := List.exists_cons_of_ne_nil hs
          exact Or.inr ⟨c, by simp, suffStr_mem_chars hsa (by simp)⟩
      · -- s nonempty suffix of k, t a prefix of sep ++ rest
        cases t with
        | nil =>
          obtain ⟨w, hw⟩ := hsa
          exact Or.inl ⟨k, by simp, ⟨w, [], by simp [hw]⟩⟩
        | cons t0 t' =>
          obtain ⟨c0, cs0, rfl⟩ := List.exists_cons_of_ne_nil hsep
          obtain ⟨w, hw⟩ := hpb
          simp only [List.cons_append, List.cons.injEq] at hw
          exact Or.inr ⟨t0, by simp, by simp [← hw.1]⟩

theorem SubStr.appendRight {m s : Str} (h : SubStr m s) (t : Str) : SubStr m (s ++ t) := by
  obtain ⟨a, b, rfl⟩ := h
  exact ⟨a, b ++ t, by simp [List.append_assoc]⟩

theorem SubStr.appendLeft {m s : Str} (h : SubStr m s) (t : Str) : SubStr m (t ++ s) := by
  obtain ⟨a, b, rfl⟩ := h
  exact ⟨t ++ a, b, by simp [List.append_assoc]⟩

theorem stripEnd_eq_nil_iff {l : Str} :
    stripEnd l = [] ↔ ∀ c ∈ l, Char.isWhitespace c = true := by
  simp [stripEnd, List.dropWhile_eq_nil_iff]

theorem stripEnd_append_of_ne {a b : Str} (h : stripEnd b ≠ []) :
    stripEnd (a ++ b) = a ++ stripEnd b := by
  unfold stripEnd at h ⊢
  rw [List.reverse_append, List.dropWhile_append]
  have hb : (List.dropWhile Char.isWhitespace b.reverse).isEmpty = false := by
    rcases hdw : List.dropWhile Char.isWhitespace b.reverse with _ | ⟨x, xs⟩
    · rw [hdw] at h; simp at h
    · rfl
  simp [hb, List.reverse_append]

theorem stripEnd_append_allws {a b : Str} (hb : ∀ c ∈ b, Char.isWhitespace c = true) :
    stripEnd (a ++ b) = stripEnd a := by
  unfold stripEnd
  rw [List.reverse_append, List.dropWhile_append]
  have hnil : List.dropWhile Char.isWhitespace b.reverse = [] :=
    List.dropWhile_eq_nil_iff.mpr (by intro c hc; exact hb c (List.mem_reverse.mp hc))
  simp [hnil]

theorem stripEnd_last_not_ws {a : Str} {c : Char} (hc : Char.isWhitespace c = false) :
    stripEnd (a ++ [c]) = a ++ [c] := by
  unfold stripEnd
  have h1 : (a ++ [c]).reverse = c :: a.reverse := by simp
  rw [h1, List.dropWhile_cons, hc]
  simp

theorem stripEnd_eq_self_of_last {l : Str} {c : Char} (hc : Char.isWhitespace c = false)
    (h : SuffStr [c] l) : stripEnd l = l := by
  obtain ⟨t, rfl⟩ := h
  exact stripEnd_last_not_ws hc

/-- Pydantic model `ArticleRequest` (app_ui.py lines 9–20).  Defaults in the
source: audience "General readers", tone "Informative and engaging", language
"English", target_words 1000, include_outline true, include_seo true,
include_references false, reading_level "Easy to read (Grade 8–10)",
extra_instructions "". -/
structure ArticleRequest where
  topic : Str
  keywords : List Str
  audience : Str
  tone : Str
  language : Str
  target_words : Int
  include_outline : Bool
  include_seo : Bool
  include_references : Bool
  reading_level : Str
  extra_instructions : Str

/-- Pydantic model `GenConfig` (lines 23–26).  The float temperature is
modelled as a rational: it is only carried through to the request options,
never computed with.  Source defaults: model "phi3:3.8b", temperature 0.7,
seed None. -/
structure GenConfig where
  model : Str
  temperature : ℚ
  seed : Option Int

/-- Line 31: `", ".join(req.keywords) if req.keywords else "N/A"`. -/
def kw_str (req : ArticleRequest) : Str :=
  if req.keywords.isEmpty then str "N/A" else pyJoin (str ", ") req.keywords

/-- The outline instruction block of lines 32–35 (include_outline case). -/
def outlineMarker : Str :=
  str "Include a clear outline before the main content.\n- H1 title\n- 5–8 H2 sections with concise H3s where helpful\n"

/-- The skip-outline sentence of line 35 (else case). -/
def skipSentence : Str := str "Skip the outline; start directly with the article.\n"

/-- Lines 32–35. -/
def outline_block (req : ArticleRequest) : Str :=
  if req.include_outline then outlineMarker else skipSentence

/-- Lines 37–41.  Defined in the source but never interpolated into the
template (a dead local): the generated prompt never contains it. -/
def seo_block (req : ArticleRequest) : Str :=
  if req.include_seo then
    str "After the article, output an SEO block with:\n- SEO Title (≤ 60 chars)\n- Meta Description (≤ 155 chars)\n- 8–12 SEO Keywords (comma-separated)\n"
  else []

/-- Line 43.  Likewise a dead local, never interpolated into the template. -/
def refs_block (req : ArticleRequest) : Str :=
  if req.include_references then
    str "Add a short \x27References\x27 section with 3–5 plausible sources (titles only, no links).\n"
  else []

/-- Line 79, first conditional item. -/
def seo_item (req : ArticleRequest) : Str :=
  if req.include_seo then str "3) SEO Block\n" else []

/-- Line 79, second conditional item. -/
def refs_item (req : ArticleRequest) : Str :=
  if req.include_references then str "4) References\n" else []

/-- The fixed header of the Output Order section (lines 75–78). -/
def ooHeader : Str :=
  str "Output Order\n------------\n1) Outline (if requested)\n2) Full article in Markdown\n"

/-- The Output Order section of the template (lines 75–79). -/
def outputOrderSection (req : ArticleRequest) : Str :=
  ooHeader ++ seo_item req ++ refs_item req

/- Literal segments of the f-string template (lines 45–84), in source order.
Concatenated with the interpolated fields they reproduce the template text
exactly. -/

def litOpen : Str :=
  str "You are a senior content strategist and expert writer.\n\nGoal\n-----\nWrite a comprehensive, well-structured article in "

def litTopic : Str := str " for the topic:\n\""

def litAud : Str := str "\"\n\nAudience: "

def litTone : Str := str "\nTone/Voice: "

def litLevel : Str := str "\nReading Level: "

def litLen : Str := str "\nTarget Length: ~"

def litWords : Str := str " words\n"

def litKw : Str := str "Primary Keywords: "

def litStruct : Str := str "\n\nStructure & Style\n-----------------\n"

def promptMid : Str :=
  str "\n- Use Markdown formatting.\n- Use scannable headings, short paragraphs, and bullet lists where helpful.\n- Provide concrete examples and actionable tips.\n- Avoid fluff; keep it factual and clear.\n- Natural keyword usage; avoid keyword stuffing.\n\nContent Requirements\n--------------------\n- Strong hook and crisp thesis in intro.\n- Each H2 should fully cover one major point.\n- Add comparisons, pros/cons, pitfalls, or checklists where useful.\n- Conclude with practical summary or next steps.\n\n"

def litExtraHdr : Str := str "\n\nExtra Instructions\n------------------"

/-- The template body between the leading newline and the final
`\n{extra_instructions}\n` (lines 46–82). -/
def promptCore (req : ArticleRequest) : Str :=
  litOpen ++ req.language ++ litTopic ++ req.topic ++ litAud ++ req.audience ++
    litTone ++ req.tone ++ litLevel ++ req.reading_level ++ litLen ++
    pyIntStr req.target_words ++ litWords ++ litKw ++ kw_str req ++ litStruct ++
    outline_block req ++ promptMid ++ outputOrderSection req ++ litExtraHdr

/-- `build_prompt` (lines 30–84): the interpolated f-string template,
stripped of leading and trailing whitespace. -/
def build_prompt (req : ArticleRequest) : Str :=
  pyStrip (str "\n" ++ promptCore req ++ str "\n" ++ req.extra_instructions ++ str "\n")

theorem promptCore_last_dash (req : ArticleRequest) : SuffStr ['-'] (promptCore req) := by
  have hdash : litExtraHdr = str "\n\nExtra Instructions\n-----------------" ++ ['-'] := by decide
  refine ⟨litOpen ++ req.language ++ litTopic ++ req.topic ++ litAud ++ req.audience ++
    litTone ++ req.tone ++ litLevel ++ req.reading_level ++ litLen ++
    pyIntStr req.target_words ++ litWords ++ litKw ++ kw_str req ++ litStruct ++
    outline_block req ++ promptMid ++ outputOrderSection req ++
    str "\n\nExtra Instructions\n-----------------", ?_⟩
  unfold promptCore
  rw [hdash]
  simp [List.append_assoc]

theorem stripStart_template (req : ArticleRequest) (rest : Str) :
    stripStart (str "\n" ++ (promptCore req ++ rest)) = promptCore req ++ rest := by
  have hnl : str "\n" = ['\n'] := by decide
  have hY : litOpen = 'Y' ::
      str "ou are a senior content strategist and expert writer.\n\nGoal\n-----\nWrite a comprehensive, well-structured article in " := by
    decide
  have hwsnl : Char.isWhitespace '\n' = true := by decide
  have hwsY : Char.isWhitespace 'Y' = false := by decide
  rw [hnl]
  unfold promptCore
  rw [hY]
  simp [stripStart, List.dropWhile_cons, hwsnl, hwsY, List.append_assoc]

/-- The built prompt is the template body followed by whatever survives the
final strip of the `\n{extra_instructions}\n` tail. -/
theorem build_prompt_decomp (req : ArticleRequest) :
    build_prompt req =
      promptCore req ++ stripEnd (str "\n" ++ (req.extra_instructions ++ str "\n")) := by
  have htmpl : str "\n" ++ promptCore req ++ str "\n" ++ req.extra_instructions ++ str "\n" =
      str "\n" ++ (promptCore req ++ (str "\n" ++ (req.extra_instructions ++ str "\n"))) := by
    simp [List.append_assoc]
  unfold build_prompt pyStrip
  rw [htmpl, stripStart_template]
  by_cases h0 : stripEnd (str "\n" ++ (req.extra_instructions ++ str "\n")) = []
  · rw [stripEnd_append_allws (stripEnd_eq_nil_iff.mp h0), h0, List.append_nil]
    exact stripEnd_eq_self_of_last (by decide) (promptCore_last_dash req)
  · rw [stripEnd_append_of_ne h0]

/-- Anything occurring in the template body occurs in the built prompt. -/
theorem subStr_core_prompt {req : ArticleRequest} {m : Str}
    (h : SubStr m (promptCore req)) : SubStr m (build_prompt req) := by
  rw [build_prompt_decomp]
  exact SubStr.appendRight h _

/-- Python values that can reach the streaming loop.  The loop only ever
inspects dict lookups, string-ness and truthiness, so this small universe
suffices. -/
inductive PyVal where
  | str (s : Str)
  | int (n : Int)
  | dict (entries : List (Str × PyVal))

/-- The exceptions the generation client can raise or propagate. -/
inductive PyErr where
  | attributeError
  | typeError
  | endpointError (msg : Str)
deriving DecidableEq

/-- Python `d.get(k, dflt)` on a dict's entry list (first match wins). -/
def pyGet (d : List (Str × PyVal)) (k : Str) (dflt : PyVal) : PyVal :=
  (d.lookup k).getD dflt

/-- Python truthiness for the values above. -/
def pyTruthy : PyVal → Bool
  | .str s => !s.isEmpty
  | .int n => n != 0
  | .dict d => !d.isEmpty

/-- Line 106: `chunk.get("message", {}).get("content", "")`.  A dict chunk
with missing fields yields the defaults; calling `.get` on a non-dict raises
AttributeError. -/
def chunkContent : PyVal → Except PyErr PyVal
  | .dict d =>
    match pyGet d (str "message") (.dict []) with
    | .dict m => .ok (pyGet m (str "content") (.str []))
    | _ => .error .attributeError
  | _ => .error .attributeError

/-- Lines 104–108: the accumulator loop; truthy contents are kept in arrival
order. -/
def collectChunks : List PyVal → Except PyErr (List PyVal)
  | [] => .ok []
  | c :: cs => do
    let content ← chunkContent c
    let rest ← collectChunks cs
    pure (if pyTruthy content then content :: rest else rest)

/-- Python `"".join` element check: every element must be a string. -/
def asStr : PyVal → Except PyErr Str
  | .str s => .ok s
  | _ => .error .typeError

/-- Check all join arguments in order. -/
def asStrList : List PyVal → Except PyErr (List Str)
  | [] => .ok []
  | v :: vs => do
    let s ← asStr v
    let rest ← asStrList vs
    pure (s :: rest)

/-- Line 109: `"".join(chunks)`. -/
def pyJoinVals (vs : List PyVal) : Except PyErr Str := do
  let ss ← asStrList vs
  pure (pyJoin [] ss)

/-- A streamed ollama response: the chunks yielded in order, plus an optional
error that the iterator raises after the last yielded chunk. -/
structure OllamaStream where
  chunks : List PyVal
  final : Option PyErr

/-- Values appearing in the request's options map. -/
inductive OptVal where
  | num (q : ℚ)
  | int (n : Int)
deriving DecidableEq

/-- One role-tagged chat message. -/
structure ChatMessage where
  role : Str
  content : Str

/-- The request handed to `ollama.chat` (lines 94–102). -/
structure ChatRequest where
  model : Str
  messages : List ChatMessage
  stream : Bool
  options : List (Str × OptVal)

/-- Lines 89–102: the messages and options actually passed to the endpoint.
The seed entry exists only when `cfg.seed` is present. -/
def mkChatRequest (prompt : Str) (cfg : GenConfig) : ChatRequest :=
  ⟨cfg.model,
   [⟨str "system", str "Write clear, accurate, reader-friendly content. Prefer Markdown."⟩,
    ⟨str "user", prompt⟩],
   true,
   (str "temperature", OptVal.num cfg.temperature) ::
     (match cfg.seed with
      | some n => [(str "seed", OptVal.int n)]
      | none => [])⟩

/-- Lines 104–109: consume one stream to completion. -/
def runStream (st : OllamaStream) : Except PyErr Str := do
  let collected ← collectChunks st.chunks
  match st.final with
  | some e => .error e
  | none => pyJoinVals collected

/-- `generate_article` (lines 88–109), parameterised by the model-serving
endpoint; a raised exception is an `Except.error`. -/
def generate_article (endpoint : ChatRequest → OllamaStream) (prompt : Str)
    (cfg : GenConfig) : Except PyErr Str :=
  runStream (endpoint (mkChatRequest prompt cfg))

/-- The widget values read by the click handler (lines 119–135). -/
structure FormState where
  model : Str
  temperature : ℚ
  use_seed : Bool
  seed : Int
  target_words : Int
  topic : Str
  keywords_raw : Str
  audience : Str
  tone : Str
  reading_level : Str
  language : Str
  include_outline : Bool
  include_seo : Bool
  include_refs : Bool
  extra : Str

/-- Line 144: split the raw keyword text on commas, strip each piece, and
drop the blank ones. -/
def splitKeywords (raw : Str) : List Str :=
  ((raw.splitOn ',').map pyStrip).filter (fun k => !k.isEmpty)

/-- Outcome of one click of the Generate button. -/
inductive UiOutcome where
  | validationError (msg : Str)
  | generated (content : Str)
  | genFailed (e : PyErr)
deriving DecidableEq

/-- Lines 137–164: the Generate-button handler, from form state to outcome,
parameterised by the model-serving endpoint.  A blank topic stops before any
prompt is built or request sent (lines 138–140). -/
def handleGenerate (form : FormState) (endpoint : ChatRequest → OllamaStream) :
    UiOutcome :=
  if (pyStrip form.topic).isEmpty then .validationError (str "Please enter a topic.")
  else
    let req : ArticleRequest :=
      ⟨pyStrip form.topic, splitKeywords form.keywords_raw, pyStrip form.audience,
       pyStrip form.tone, pyStrip form.language, form.target_words,
       form.include_outline, form.include_seo, form.include_refs,
       form.reading_level, pyStrip form.extra⟩
    let cfg : GenConfig :=
      ⟨pyStrip form.model, form.temperature,
       if form.use_seed then some form.seed else none⟩
    match generate_article endpoint (build_prompt req) cfg with
    | .ok content => .generated content
    | .error e => .genFailed e

/-- Everything of the template body before the outline block; independent of
`include_outline`. -/
def promptHeadPart (req : ArticleRequest) : Str :=
  litOpen ++ req.language ++ litTopic ++ req.topic ++ litAud ++ req.audience ++
    litTone ++ req.tone ++ litLevel ++ req.reading_level ++ litLen ++
    pyIntStr req.target_words ++ litWords ++ litKw ++ kw_str req ++ litStruct

/-- Everything of the template body after the outline block; independent of
`include_outline`. -/
def promptAfterOutline (req : ArticleRequest) : Str :=
  promptMid ++ outputOrderSection req ++ litExtraHdr

theorem build_prompt_outline_decomp (req : ArticleRequest) :
    build_prompt req =
      promptHeadPart req ++ (outline_block req ++ (promptAfterOutline req ++
        stripEnd (str "\n" ++ (req.extra_instructions ++ str "\n")))) := by
  rw [build_prompt_decomp]
  simp [promptCore, promptHeadPart, promptAfterOutline, List.append_assoc]

/-- The request with its `include_outline` flag replaced. -/
def setOutline : ArticleRequest → Bool → ArticleRequest
  | ⟨t, k, a, tn, lg, tw, _, s, r, rl, ex⟩, b => ⟨t, k, a, tn, lg, tw, b, s, r, rl, ex⟩

/-- The topic is interpolated into the prompt without any escaping. -/
theorem subStr_topic_prompt (req : ArticleRequest) :
    SubStr req.topic (build_prompt req) := by
  apply subStr_core_prompt
  exact ⟨litOpen ++ req.language ++ litTopic,
    litAud ++ req.audience ++ litTone ++ req.tone ++ litLevel ++ req.reading_level ++
      litLen ++ pyIntStr req.target_words ++ litWords ++ litKw ++ kw_str req ++
      litStruct ++ outline_block req ++ promptMid ++ outputOrderSection req ++ litExtraHdr,
    by simp [promptCore, List.append_assoc]⟩

/-- The Output Order section sits verbatim inside the built prompt. -/
theorem subStr_section_prompt (req : ArticleRequest) :
    SubStr (outputOrderSection req) (build_prompt req) := by
  apply subStr_core_prompt
  exact ⟨litOpen ++ req.language ++ litTopic ++ req.topic ++ litAud ++ req.audience ++
      litTone ++ req.tone ++ litLevel ++ req.reading_level ++ litLen ++
      pyIntStr req.target_words ++ litWords ++ litKw ++ kw_str req ++ litStruct ++
      outline_block req ++ promptMid,
    litExtraHdr,
    by simp [promptCore, List.append_assoc]⟩

/-- C3 (amended): flipping `include_outline` swaps exactly the outline block
against the skip-outline sentence at a fixed position of the prompt; in
particular the prompt contains the outline block when the flag is set and
the skip sentence when it is not.  (The original claim's non-containment
directions fail: user-supplied fields may themselves contain either
sentence, see the counterexample.) -/
theorem claim_C3_outline_swap (req : ArticleRequest) :
    ∃ A B : Str,
      (∀ b, build_prompt (setOutline req b) =
        A ++ ((if b then outlineMarker else skipSentence) ++ B)) ∧
      SubStr outlineMarker (build_prompt (setOutline req true)) ∧
      SubStr skipSentence (build_prompt (setOutline req false)) := by
  have hswap : ∀ b, build_prompt (setOutline req b) =
      promptHeadPart req ++ ((if b then outlineMarker else skipSentence) ++
        (promptAfterOutline req ++
          stripEnd (str "\n" ++ (req.extra_instructions ++ str "\n")))) := by
    intro b
    cases req
    rw [build_prompt_outline_decomp]
    rfl
  refine ⟨promptHeadPart req,
    promptAfterOutline req ++ stripEnd (str "\n" ++ (req.extra_instructions ++ str "\n")),
    hswap, ?_, ?_⟩
  · exact ⟨promptHeadPart req,
      promptAfterOutline req ++ stripEnd (str "\n" ++ (req.extra_instructions ++ str "\n")),
      by simpa using hswap true⟩
  · exact ⟨promptHeadPart req,
      promptAfterOutline req ++ stripEnd (str "\n" ++ (req.extra_instructions ++ str "\n")),
      by simpa using hswap false⟩

/-- C3 (counterexample): a request whose topic is the skip-outline sentence
has `include_outline = true` yet its prompt does contain the skip-outline
sentence, refuting the claimed non-containment. -/
theorem claim_C3_counterexample :
    (ArticleRequest.include_outline
        ⟨str "Skip the outline; start directly with the article.", [],
         str "General readers", str "Informative and engaging", str "English",
         1000, true, true, false, str "Easy to read (Grade 8–10)", []⟩ = true) ∧
    SubStr (str "Skip the outline; start directly with the article.")
      (build_prompt
        ⟨str "Skip the outline; start directly with the article.", [],
         str "General readers", str "Informative and engaging", str "English",
         1000, true, true, false, str "Easy to read (Grade 8–10)", []⟩) :=
  ⟨rfl, subStr_topic_prompt _⟩

/-- C10: whatever the three include flags are, the built prompt always
contains the fixed Output Order lines "1) Outline (if requested)" and
"2) Full article in Markdown", even when no outline is requested. -/
theorem claim_C10_fixed_items (req : ArticleRequest) :
    SubStr (str "1) Outline (if requested)\n") (build_prompt req) ∧
    SubStr (str "2) Full article in Markdown\n") (build_prompt req) := by
  have hoo : ∀ m : Str, SubStr m ooHeader → SubStr m (build_prompt req) := by
    intro m hm
    refine SubStr.mono (SubStr.mono hm ?_) (subStr_section_prompt req)
    exact ⟨[], seo_item req ++ refs_item req, by simp [outputOrderSection, List.append_assoc]⟩
  exact ⟨hoo _ (by decide), hoo _ (by decide)⟩

/-- C5: the Output Order section of the built prompt always labels the SEO
item "3)" and the references item "4)"; with include_seo off and
include_references on it lists "4) References" and contains no "3)" at all —
no renumbering happens. -/
theorem claim_C5_output_order (req : ArticleRequest) :
    SubStr (outputOrderSection req) (build_prompt req)
    ∧ (req.include_seo = false → req.include_references = true →
        SubStr (str "4) References\n") (outputOrderSection req) ∧
        ¬ SubStr (str "3)") (outputOrderSection req))
    ∧ (req.include_seo = true →
        SubStr (str "3) SEO Block\n") (outputOrderSection req))
    ∧ (req.include_references = true →
        SubStr (str "4) References\n") (outputOrderSection req)) := by
  refine ⟨subStr_section_prompt req, ?_, ?_, ?_⟩
  · intro h1 h2
    have hsec : outputOrderSection req = ooHeader ++ ([] : Str) ++ str "4) References\n" := by
      simp [outputOrderSection, seo_item, refs_item, h1, h2]
    rw [hsec]
    exact ⟨by decide, by decide⟩
  · intro h
    exact ⟨ooHeader, refs_item req,
      by simp [outputOrderSection, seo_item, h, List.append_assoc]⟩
  · intro h
    exact ⟨ooHeader ++ seo_item req, [],
      by simp [outputOrderSection, refs_item, h, List.append_assoc]⟩

/-- C5 (witness): at a concrete request with include_seo off and
include_references on, the section shows "4) References" unrenumbered. -/
theorem claim_C5_witness :
    SubStr (str "4) References\n")
      (outputOrderSection ⟨str "t", [], [], [], [], 1000, true, false, true, [], []⟩) ∧
    ¬ SubStr (str "3)")
      (outputOrderSection ⟨str "t", [], [], [], [], 1000, true, false, true, [], []⟩) :=
  (claim_C5_output_order ⟨str "t", [], [], [], [], 1000, true, false, true, [], []⟩).2.1
    rfl rfl

/-- C2: the options map passed to the endpoint always carries the
temperature; it carries a seed entry exactly when the config has one, with
the configured integer, and no entry at all when the seed is None. -/
theorem claim_C2_options (prompt : Str) (cfg : GenConfig) :
    (mkChatRequest prompt cfg).options.lookup (str "temperature") =
        some (OptVal.num cfg.temperature)
    ∧ (mkChatRequest prompt cfg).options.lookup (str "seed") =
        Option.map OptVal.int cfg.seed
    ∧ (cfg.seed = none →
        (mkChatRequest prompt cfg).options =
          [(str "temperature", OptVal.num cfg.temperature)])
    ∧ (∀ n, cfg.seed = some n →
        (mkChatRequest prompt cfg).options =
          [(str "temperature", OptVal.num cfg.temperature),
           (str "seed", OptVal.int n)])
    ∧ (∀ endpoint, generate_article endpoint prompt cfg =
        runStream (endpoint (mkChatRequest prompt cfg))) := by
  have hbeq1 : ((str "temperature" : Str) == str "temperature") = true := by decide
  have hbeq2 : ((str "seed" : Str) == str "temperature") = false := by decide
  have hbeq3 : ((str "seed" : Str) == str "seed") = true := by decide
  cases hs : cfg.seed with
  | none => simp [mkChatRequest, hs, List.lookup, hbeq1, hbeq2, generate_article]
  | some n => simp [mkChatRequest, hs, List.lookup, hbeq1, hbeq2, hbeq3, generate_article]

/-- C2 (witness): concrete configurations with and without a seed. -/
theorem claim_C2_witness :
    (mkChatRequest (str "p") ⟨str "m", 7/10, none⟩).options =
      [(str "temperature", OptVal.num (7/10))] ∧
    (mkChatRequest (str "p") ⟨str "m", 7/10, some 42⟩).options =
      [(str "temperature", OptVal.num (7/10)), (str "seed", OptVal.int 42)] :=
  ⟨(claim_C2_options (str "p") ⟨str "m", 7/10, none⟩).2.2.1 rfl,
   (claim_C2_options (str "p") ⟨str "m", 7/10, some 42⟩).2.2.2.1 42 rfl⟩

/-- C6: a blank (empty or whitespace-only) topic makes the click handler
signal the validation failure, independently of the endpoint — no prompt is
built and no request is sent. -/
theorem claim_C6_blank_topic (form : FormState) (endpoint : ChatRequest → OllamaStream)
    (h : pyStrip form.topic = []) :
    handleGenerate form endpoint = .validationError (str "Please enter a topic.") ∧
    ∀ endpoint2, handleGenerate form endpoint = handleGenerate form endpoint2 := by
  constructor
  · simp [handleGenerate, h]
  · intro endpoint2
    simp [handleGenerate, h]

/-- C6 (witness): a whitespace-only topic at a concrete form state. -/
theorem claim_C6_witness :
    handleGenerate
      ⟨str "m", 7/10, false, 42, 1000, str "   ", [], [], [], [], [], true, true,
       false, []⟩ (fun _ => ⟨[], none⟩) =
      .validationError (str "Please enter a topic.") :=
  (claim_C6_blank_topic
      ⟨str "m", 7/10, false, 42, 1000, str "   ", [], [], [], [], [], true, true,
       false, []⟩ (fun _ => ⟨[], none⟩) (by decide)).1

/-- C7: if the endpoint's stream raises after yielding one or more chunks,
generate_article propagates an error and returns no text at all — the
partial chunks are not surfaced. -/
theorem claim_C7_midstream_failure (endpoint : ChatRequest → OllamaStream)
    (prompt : Str) (cfg : GenConfig) (e : PyErr)
    (_hchunks : (endpoint (mkChatRequest prompt cfg)).chunks ≠ [])
    (hfin : (endpoint (mkChatRequest prompt cfg)).final = some e) :
    (∃ e2, generate_article endpoint prompt cfg = .error e2) ∧
    ∀ s, generate_article endpoint prompt cfg ≠ .ok s := by
  have hmain : ∃ e2, generate_article endpoint prompt cfg = .error e2 := by
    unfold generate_article runStream
    cases hc : collectChunks (endpoint (mkChatRequest prompt cfg)).chunks with
    | error e3 => exact ⟨e3, by simp [hc, Bind.bind, Except.bind]⟩
    | ok l => exact ⟨e, by simp [hc, hfin, Bind.bind, Except.bind]⟩
  refine ⟨hmain, ?_⟩
  intro s hs
  obtain ⟨e2, he2⟩ := hmain
  rw [hs] at he2
  exact Except.noConfusion he2

/-- C7 (witness): a concrete stream that yields one chunk ("Hel") and then
raises; the partial text "Hel" is not returned. -/
theorem claim_C7_witness :
    generate_article
      (fun _ => ⟨[PyVal.dict [(str "message", PyVal.dict [(str "content", PyVal.str (str "Hel"))])]],
        some (PyErr.endpointError (str "boom"))⟩)
      (str "p") ⟨str "m", 7/10, none⟩ ≠ .ok (str "Hel") :=
  (claim_C7_midstream_failure
      (fun _ => ⟨[PyVal.dict [(str "message", PyVal.dict [(str "content", PyVal.str (str "Hel"))])]],
        some (PyErr.endpointError (str "boom"))⟩)
      (str "p") ⟨str "m", 7/10, none⟩ (PyErr.endpointError (str "boom"))
      (by simp) rfl).2 (str "Hel")

theorem collectChunks_forall {chunks : List PyVal} {deltas : List Str}
    (h : List.Forall₂ (fun c d => chunkContent c = .ok (.str d)) chunks deltas) :
    collectChunks chunks = .ok ((deltas.filter (fun d => !d.isEmpty)).map PyVal.str) := by
  induction h with
  | nil => rfl
  | @cons c d cs ds hcd htail ih =>
    rcases d with _ | ⟨c0, d0⟩
    · simp [collectChunks, hcd, ih, Bind.bind, Except.bind, pure, Except.pure, pyTruthy,
        List.filter_cons]
    · simp [collectChunks, hcd, ih, Bind.bind, Except.bind, pure, Except.pure, pyTruthy,
        List.filter_cons]

theorem pyJoinVals_strs (ss : List Str) :
    pyJoinVals (ss.map PyVal.str) = .ok (pyJoin [] ss) := by
  have hmap : asStrList (ss.map PyVal.str) = .ok ss := by
    induction ss with
    | nil => rfl
    | cons s tail ih =>
      simp [List.map_cons, asStrList, ih, asStr, Bind.bind, Except.bind, pure, Except.pure]
  simp [pyJoinVals, hmap, Bind.bind, Except.bind, pure, Except.pure]

theorem pyJoin_nil_foldr (ss : List Str) :
    pyJoin [] ss = ss.foldr (fun a b => a ++ b) [] := by
  induction ss with
  | nil => rfl
  | cons k ks ih =>
    cases ks with
    | nil => simp [pyJoin]
    | cons k2 ks2 => simp [pyJoin, ih]

theorem foldr_append_filter_nonempty (ss : List Str) :
    (ss.filter (fun d => !d.isEmpty)).foldr (fun a b => a ++ b) [] =
      ss.foldr (fun a b => a ++ b) [] := by
  induction ss with
  | nil => rfl
  | cons d ds ih =>
    rcases d with _ | ⟨c, cs⟩
    · simpa [List.filter_cons] using ih
    · simp [List.filter_cons, ih]

/-- C1: a stream consumed without error yields exactly the concatenation of
all textual deltas in arrival order, with no separators; delta-less chunks
contribute the empty string. -/
theorem claim_C1_stream_concat (endpoint : ChatRequest → OllamaStream)
    (prompt : Str) (cfg : GenConfig) (deltas : List Str)
    (hok : List.Forall₂ (fun c d => chunkContent c = .ok (.str d))
      (endpoint (mkChatRequest prompt cfg)).chunks deltas)
    (hfin : (endpoint (mkChatRequest prompt cfg)).final = none) :
    generate_article endpoint prompt cfg =
      .ok (deltas.foldr (fun a b => a ++ b) []) := by
  unfold generate_article runStream
  rw [collectChunks_forall hok]
  simp only [Bind.bind, Except.bind, hfin, pyJoinVals_strs, pyJoin_nil_foldr,
    foldr_append_filter_nonempty]

/-- C1 (witness): deltas "Hel", "lo, ", "world" concatenate to
"Hello, world". -/
theorem claim_C1_witness :
    generate_article
      (fun _ => ⟨[PyVal.dict [(str "message", PyVal.dict [(str "content", PyVal.str (str "Hel"))])],
                  PyVal.dict [(str "message", PyVal.dict [(str "content", PyVal.str (str "lo, "))])],
                  PyVal.dict [(str "message", PyVal.dict [(str "content", PyVal.str (str "world"))])]],
        none⟩) (str "p") ⟨str "m", 7/10, none⟩ = .ok (str "Hello, world") := by
  refine Eq.trans (claim_C1_stream_concat _ (str "p") ⟨str "m", 7/10, none⟩
    [str "Hel", str "lo, ", str "world"] ?_ rfl) (by rfl)
  exact List.Forall₂.cons rfl
    (List.Forall₂.cons rfl (List.Forall₂.cons rfl List.Forall₂.nil))

/-- A chunk that is a dict but lacks the message field, or whose message
dict lacks the content field. -/
def lacksDelta (c : PyVal) : Prop :=
  ∃ d, c = PyVal.dict d ∧
    (d.lookup (str "message") = none ∨
      ∃ m, d.lookup (str "message") = some (.dict m) ∧
        m.lookup (str "content") = none)

theorem chunkContent_of_lacksDelta {c : PyVal} (h : lacksDelta c) :
    chunkContent c = .ok (.str []) := by
  obtain ⟨d, rfl, hd | ⟨m, hm, hc⟩⟩ := h
  · simp [chunkContent, pyGet, hd]
  · simp [chunkContent, pyGet, hm, hc]

/-- C8 (amended): chunks that merely lack the expected message/content
fields do NOT make generate_article fail; they contribute the empty delta
and the call still returns a (possibly empty) result. -/
theorem claim_C8_missing_fields (endpoint : ChatRequest → OllamaStream)
    (prompt : Str) (cfg : GenConfig)
    (hfin : (endpoint (mkChatRequest prompt cfg)).final = none)
    (hall : ∀ c ∈ (endpoint (mkChatRequest prompt cfg)).chunks, lacksDelta c) :
    generate_article endpoint prompt cfg = .ok [] := by
  unfold generate_article runStream
  have hcollect : ∀ chunks : List PyVal, (∀ c ∈ chunks, lacksDelta c) →
      collectChunks chunks = .ok [] := by
    intro chunks
    induction chunks with
    | nil => intro _; rfl
    | cons c cs ih =>
      intro hmem
      have hc := chunkContent_of_lacksDelta (hmem c (by simp))
      have hcs := ih (fun x hx => hmem x (by simp [hx]))
      simp [collectChunks, hc, hcs, Bind.bind, Except.bind, pure, Except.pure, pyTruthy]
  rw [hcollect _ hall]
  simp [Bind.bind, Except.bind, pure, Except.pure, hfin, pyJoinVals, asStrList, pyJoin]

/-- C8 (witness): a stream of two field-lacking chunks succeeds with the
empty result. -/
theorem claim_C8_witness :
    generate_article
      (fun _ => ⟨[PyVal.dict [], PyVal.dict [(str "message", PyVal.dict [])]], none⟩)
      (str "p") ⟨str "m", 7/10, none⟩ = .ok [] := by
  refine claim_C8_missing_fields _ (str "p") ⟨str "m", 7/10, none⟩ rfl ?_
  intro c hc
  simp only [List.mem_cons, List.not_mem_nil, or_false] at hc
  rcases hc with rfl | rfl
  · exact ⟨[], rfl, Or.inl rfl⟩
  · exact ⟨[(str "message", PyVal.dict [])], rfl, Or.inr ⟨[], rfl, rfl⟩⟩

/-- C8 (counterexample): a stream containing a chunk with no message field
does not propagate any failure — generate_article returns a result
(the empty string), refuting the claimed failure propagation. -/
theorem claim_C8_counterexample :
    generate_article (fun _ => ⟨[PyVal.dict []], none⟩) (str "p")
      ⟨str "m", 7/10, none⟩ = .ok [] := rfl

/-- C4 (amended): the keyword line of the prompt sits verbatim in the built
prompt; its content is the literal "N/A" when the keyword list is empty and
exactly the keywords joined by ", " in order when non-empty; the
contains-"N/A"-iff-empty reading holds provided no keyword itself contains
"N/A" (the unrestricted iff fails, see the counterexample). -/
theorem claim_C4_keyword_line (req : ArticleRequest) :
    SubStr (litKw ++ kw_str req) (build_prompt req)
    ∧ (req.keywords = [] → kw_str req = str "N/A")
    ∧ (req.keywords ≠ [] → kw_str req = pyJoin (str ", ") req.keywords)
    ∧ ((∀ k ∈ req.keywords, ¬ SubStr (str "N/A") k) →
        (SubStr (str "N/A") (litKw ++ kw_str req) ↔ req.keywords = [])) := by
  refine ⟨?_, ?_, ?_, ?_⟩
  · apply subStr_core_prompt
    exact ⟨litOpen ++ req.language ++ litTopic ++ req.topic ++ litAud ++ req.audience ++
        litTone ++ req.tone ++ litLevel ++ req.reading_level ++ litLen ++
        pyIntStr req.target_words ++ litWords,
      litStruct ++ outline_block req ++ promptMid ++ outputOrderSection req ++ litExtraHdr,
      by simp [promptCore, List.append_assoc]⟩
  · intro h
    simp [kw_str, h]
  · intro h
    rcases hk : req.keywords with _ | ⟨k0, ks⟩
    · exact absurd hk h
    · simp [kw_str, hk]
  · intro hno
    constructor
    · intro hsub
      by_contra hne
      have hjoin : kw_str req = pyJoin (str ", ") req.keywords := by
        rcases hk : req.keywords with _ | ⟨k0, ks⟩
        · exact absurd hk hne
        · simp [kw_str, hk]
      rw [hjoin] at hsub
      rcases subStr_append_cases hsub with h1 | h2 | ⟨s, t, hm, hs, hsuf, -⟩
      · exact absurd h1 (by decide)
      · rcases subStr_pyJoin_cases (by decide) (by decide) h2 with ⟨k, hkmem, hksub⟩ | hc
        · exact hno k hkmem hksub
        · exact absurd hc (by decide)
      · obtain ⟨c, cs, rfl⟩ := List.exists_cons_of_ne_nil hs
        have hNA : str "N/A" = 'N' :: str "/A" := by decide
        rw [hNA] at hm
        simp only [List.cons_append, List.cons.injEq] at hm
        have hcmem : c ∈ litKw := suffStr_mem_chars hsuf (by simp)
        rw [← hm.1] at hcmem
        exact absurd hcmem (by decide)
    · intro h
      have : kw_str req = str "N/A" := by simp [kw_str, h]
      rw [this]
      exact ⟨litKw, [], by simp⟩

/-- C4 (witness): with no keywords the line does contain "N/A". -/
theorem claim_C4_witness :
    SubStr (str "N/A")
      (litKw ++ kw_str ⟨str "t", [], [], [], [], 1000, true, true, false, [], []⟩) ↔
    ArticleRequest.keywords ⟨str "t", [], [], [], [], 1000, true, true, false, [], []⟩ = [] :=
  (claim_C4_keyword_line ⟨str "t", [], [], [], [], 1000, true, true, false, [], []⟩).2.2.2
    (by simp)

/-- C4 (counterexample): a request whose sole keyword is "N/A" has a keyword
line containing "N/A" although the keyword list is not empty, refuting the
claimed iff. -/
theorem claim_C4_counterexample :
    SubStr (str "N/A")
      (litKw ++ kw_str ⟨str "t", [str "N/A"], [], [], [], 1000, true, true, false, [], []⟩) ∧
    ArticleRequest.keywords
        ⟨str "t", [str "N/A"], [], [], [], 1000, true, true, false, [], []⟩ ≠ [] := by
  constructor
  · decide
  · decide

theorem stripEnd_wrap_last {e : Str} {c : Char} (hc : Char.isWhitespace c = false) :
    stripEnd (str "\n" ++ ((e ++ [c]) ++ str "\n")) = '\n' :: (e ++ [c]) := by
  have hnl : str "\n" = ['\n'] := by decide
  have h1 : str "\n" ++ ((e ++ [c]) ++ str "\n") = (('\n' :: e) ++ [c]) ++ ['\n'] := by
    simp [hnl, List.append_assoc]
  have hws : ∀ x ∈ ['\n'], Char.isWhitespace x = true := by
    intro x hx
    rw [List.mem_singleton] at hx
    rw [hx]
    rfl
  rw [h1, stripEnd_append_allws hws, stripEnd_last_not_ws hc]
  simp

theorem build_prompt_head (req : ArticleRequest) :
    (build_prompt req).head? = some 'Y' := by
  have hY : litOpen = 'Y' ::
      str "ou are a senior content strategist and expert writer.\n\nGoal\n-----\nWrite a comprehensive, well-structured article in " := by
    decide
  rw [build_prompt_decomp]
  unfold promptCore
  rw [hY]
  simp

/-- C9 (amended): whenever extra_instructions is empty or does not end in a
whitespace character — as is the case for every request the UI builds, since
it strips the field — the built prompt contains extra_instructions verbatim,
ends (when the field is non-empty) with the Extra Instructions section
followed by the field, and carries no leading or trailing whitespace.  (For
a field with trailing whitespace the final strip can eat into it, see the
counterexample.) -/
theorem claim_C9_trailing_extra (req : ArticleRequest)
    (hyp : req.extra_instructions = [] ∨
      ∃ e c, req.extra_instructions = e ++ [c] ∧ Char.isWhitespace c = false) :
    SubStr req.extra_instructions (build_prompt req)
    ∧ (req.extra_instructions ≠ [] →
        SuffStr (str "Extra Instructions\n------------------\n" ++ req.extra_instructions)
          (build_prompt req))
    ∧ (∀ c, (build_prompt req).head? = some c → Char.isWhitespace c = false)
    ∧ (∀ c, (build_prompt req).getLast? = some c → Char.isWhitespace c = false) := by
  have hhead : ∀ c, (build_prompt req).head? = some c → Char.isWhitespace c = false := by
    intro c hcy
    rw [build_prompt_head req] at hcy
    obtain rfl : c = 'Y' := (Option.some_inj.mp hcy).symm
    rfl
  rcases hyp with hnil | ⟨e, c, hec, hc⟩
  · have hstrip : stripEnd (str "\n" ++ (req.extra_instructions ++ str "\n")) = [] := by
      rw [hnil]
      decide
    have hbp : build_prompt req = promptCore req := by
      rw [build_prompt_decomp, hstrip, List.append_nil]
    refine ⟨⟨[], build_prompt req, by simp [hnil]⟩, fun h => absurd hnil h, hhead, ?_⟩
    intro c hcl
    obtain ⟨t, ht⟩ := promptCore_last_dash req
    rw [hbp, ht, List.getLast?_concat] at hcl
    obtain rfl : c = '-' := (Option.some_inj.mp hcl).symm
    rfl
  · have hbp : build_prompt req = promptCore req ++ ('\n' :: (e ++ [c])) := by
      rw [build_prompt_decomp, hec, stripEnd_wrap_last hc]
    refine ⟨?_, ?_, hhead, ?_⟩
    · rw [hbp, hec]
      exact ⟨promptCore req ++ ['\n'], [], by simp [List.append_assoc]⟩
    · intro hne2
      rw [hbp, hec]
      have hsplit : litExtraHdr = str "\n" ++ str "\nExtra Instructions\n------------------" := by
        decide
      refine ⟨litOpen ++ req.language ++ litTopic ++ req.topic ++ litAud ++ req.audience ++
        litTone ++ req.tone ++ litLevel ++ req.reading_level ++ litLen ++
        pyIntStr req.target_words ++ litWords ++ litKw ++ kw_str req ++ litStruct ++
        outline_block req ++ promptMid ++ outputOrderSection req ++ str "\n" ++ str "\n", ?_⟩
      unfold promptCore
      rw [hsplit]
      have h3 : str "\nExtra Instructions\n------------------" =
          '\n' :: str "Extra Instructions\n------------------" := by decide
      have h4 : str "Extra Instructions\n------------------\n" =
          str "Extra Instructions\n------------------" ++ ['\n'] := by decide
      have hnl : str "\n" = ['\n'] := by decide
      rw [h3, h4]
      simp [hnl, List.append_assoc]
    · intro c2 hcl
      rw [hbp] at hcl
      have : promptCore req ++ ('\n' :: (e ++ [c])) = (promptCore req ++ ('\n' :: e)) ++ [c] := by
        simp [List.append_assoc]
      rw [this, List.getLast?_concat] at hcl
      obtain rfl : c2 = c := (Option.some_inj.mp hcl).symm
      exact hc

/-- C9 (witness): a request whose extra_instructions is "Add a checklist."
keeps it verbatim at the end of the prompt. -/
theorem claim_C9_witness :
    SuffStr (str "Extra Instructions\n------------------\n" ++ str "Add a checklist.")
      (build_prompt ⟨str "t", [], [], [], [], 1000, true, true, false, [],
        str "Add a checklist."⟩) :=
  (claim_C9_trailing_extra
      ⟨str "t", [], [], [], [], 1000, true, true, false, [], str "Add a checklist."⟩
      (Or.inr ⟨str "Add a checklist", '.', by decide, by decide⟩)).2.1 (by decide)

/-- C9 (counterexample): with extra_instructions "zq " (trailing space) the
final strip eats the trailing whitespace, so the prompt does not contain the
field verbatim, refuting the unrestricted claim. -/
theorem claim_C9_counterexample :
    ¬ SubStr (str "zq ")
      (build_prompt ⟨str "t", [], [], [], [], 1000, true, true, false, [], str "zq "⟩) := by
  decide

end ArticleGen
